import Mathlib

set_option maxHeartbeats 1000000

/-! Embedding of the core of `varfish-server-workers` (seqvars query engine):
the gene-level recessive evaluator `seqvars::query::passes_for_gene`, the
population-frequency filter `seqvars::query::interpreter::frequency::passes`,
and the coordinate-ordered output stage of `run_query` /
`create_payload_and_write_record`.  Rust `Result` values are rendered as
`Except String`, panics (`expect`, `unreachable!`) as `Except.error`. -/

deriving instance DecidableEq for Except

/-- Modelled from the spec: the finite genotype enumeration
`{HomRef, Het, HomAlt, Missing}` of `common::Genotype` together with its
string parser (the `common` module's genotype type is not among the embedded
source files; the spec states genotype strings parse into this enumeration,
anything else being a fatal error). -/
inductive Genotype where
  | HomRef
  | Het
  | HomAlt
  | Missing
  deriving DecidableEq, Repr

/-- Modelled from the spec: parsing of VCF genotype strings into `Genotype`;
unparseable strings are an error (spec section 3: "records with unparseable
genotypes ... are a fatal error"). -/
def parseGenotype (s : String) : Except String Genotype :=
  if s = "0/0" ∨ s = "0|0" then Except.ok Genotype.HomRef
  else if s = "0/1" ∨ s = "1/0" ∨ s = "0|1" ∨ s = "1|0" then Except.ok Genotype.Het
  else if s = "1/1" ∨ s = "1|1" then Except.ok Genotype.HomAlt
  else if s = "." ∨ s = "./." ∨ s = ".|." then Except.ok Genotype.Missing
  else Except.error ("invalid genotype string: " ++ s)

/-- Per-sample call information (`schema::data::CallInfo`); only the fields
used by `passes_for_gene` are embedded. -/
structure CallInfo where
  sample : String := ""
  genotype : Option String := none
  deriving DecidableEq, Repr

/-- The VCF-level variant description (`schema::data::VcfVariant`). -/
structure VcfVariant where
  chrom : String := ""
  pos : Int := 0
  ref_allele : String := ""
  alt_allele : String := ""
  deriving DecidableEq, Repr

/-- One input variant (`schema::data::VariantRecord`); `call_infos` is an
insertion-ordered map from sample name to `CallInfo`, embedded as an
association list. -/
structure VariantRecord where
  vcf_variant : VcfVariant := {}
  call_infos : List (String × CallInfo) := []
  deriving DecidableEq, Repr

/-- The recessive-mode selector (`schema::query::RecessiveMode`). -/
inductive RecessiveMode where
  | Disabled
  | CompoundHeterozygous
  | Homozygous
  | Any
  deriving DecidableEq, Repr

/-- Per-sample genotype choice (`schema::query::GenotypeChoice`): one of the
three recessive roles, or (modelled from the spec) an arbitrary fixed
genotype requirement. -/
inductive GenotypeChoice where
  | RecessiveIndex
  | RecessiveFather
  | RecessiveMother
  | Fixed (gt : Genotype)
  deriving DecidableEq, Repr

/-- `schema::query::SampleGenotypeChoice` restricted to the fields that
`passes_for_gene` destructures. -/
structure SampleGenotypeChoice where
  sample : String := ""
  genotype : GenotypeChoice := GenotypeChoice.Fixed Genotype.HomRef
  deriving DecidableEq, Repr

/-- `schema::query::QuerySettingsGenotype`. -/
structure QuerySettingsGenotype where
  recessive_mode : RecessiveMode := RecessiveMode.Disabled
  sample_genotypes : List (String × SampleGenotypeChoice) := []
  deriving DecidableEq, Repr

/-- `schema::query::CaseQuery` restricted to the genotype settings used by
`passes_for_gene`. -/
structure CaseQuery where
  genotype : QuerySettingsGenotype := {}
  deriving DecidableEq, Repr

/-- Rust's `Option::expect` / guarded unwrap, rendered as a fallible
projection. -/
def expectSome {α : Type} (o : Option α) (msg : String) : Except String α :=
  match o with
  | some a => Except.ok a
  | none => Except.error msg

/-- The extraction of `(index, parents)` at the top of `passes_for_gene`:
iterate over the sample-genotype map, the last `RecessiveIndex` sample wins,
father/mother-role samples are appended in iteration order. -/
def extractIndexParents (sgs : List (String × SampleGenotypeChoice)) :
    String × List String :=
  sgs.foldl
    (fun acc p =>
      match p.2.genotype with
      | GenotypeChoice.RecessiveIndex => (p.1, acc.2)
      | GenotypeChoice.RecessiveFather => (acc.1, acc.2 ++ [p.1])
      | GenotypeChoice.RecessiveMother => (acc.1, acc.2 ++ [p.1])
      | _ => acc)
    ("", [])

/-- Fetching and parsing the index genotype of a variant
(`seqvar.call_infos.get(&index).expect(..).genotype.as_ref().expect(..).parse()`
with the parse error wrapped). -/
def indexGenotype (index : String) (v : VariantRecord) : Except String Genotype := do
  let ci ← expectSome (v.call_infos.lookup index) "no call info for index"
  let gt ← expectSome ci.genotype "no GT for index"
  match parseGenotype gt with
  | Except.ok g => pure g
  | Except.error e => Except.error ("could not parse index genotype: " ++ e)

/-- Fetching and parsing one parent genotype of a variant. -/
def parentGenotype (p : String) (v : VariantRecord) : Except String Genotype := do
  let ci ← expectSome (v.call_infos.lookup p) "no call info for parent"
  let gt ← expectSome ci.genotype "no GT for parent"
  parseGenotype gt

/-- Collecting all parent genotypes
(`parents.iter().map(..).collect::<Result<Vec<_>, _>>()`): left to right, the
first error wins. -/
def parentGenotypes : List String → VariantRecord → Except String (List Genotype)
  | [], _ => pure []
  | p :: ps, v => do
    let g ← parentGenotype p v
    let gs ← parentGenotypes ps v
    pure (g :: gs)

/-- The loop state of `passes_for_gene`: the two `BTreeSet`s of parents seen
heterozygous resp. homozygous-reference, and the counter of index-het
compatible variants. -/
structure RecState where
  seen_het_parents : Finset String := ∅
  seen_ref_parents : Finset String := ∅
  seen_index_het : Nat := 0
  deriving DecidableEq

/-- One iteration of the variant loop of `passes_for_gene`.  `none` encodes
the early `return Ok(true)` (single homozygous-recessive-compatible variant),
`some st` the fall-through to the next variant with updated state. -/
def processVariant (mode : RecessiveMode) (index : String) (parents : List String)
    (st : RecState) (v : VariantRecord) : Except String (Option RecState) := do
  let index_gt ← indexGenotype index v
  let parent_gts ← parentGenotypes parents v
  let homalt_parents :=
    ((parents.zip parent_gts).filter (fun x => x.2 = Genotype.HomAlt)).map Prod.fst
  let het_parents :=
    ((parents.zip parent_gts).filter (fun x => x.2 = Genotype.Het)).map Prod.fst
  let ref_parents :=
    ((parents.zip parent_gts).filter (fun x => x.2 = Genotype.HomRef)).map Prod.fst
  if ¬ homalt_parents.isEmpty then
    -- Skip this variant, found homozygous parent.
    pure (some st)
  else if index_gt = Genotype.HomAlt then
    if mode = RecessiveMode.Homozygous ∨ mode = RecessiveMode.Any then
      if het_parents.length ≠ parent_gts.length then
        -- Skip this variant, any given parent must be het.
        pure (some st)
      else
        -- All good, this variant supports the recessive mode for the gene.
        pure none
    else
      pure (some st)
  else if index_gt = Genotype.Het then
    if mode = RecessiveMode.CompoundHeterozygous ∨ mode = RecessiveMode.Any then
      if parent_gts.length = 0 then
        -- No parents, all good.
        pure (some { st with seen_index_het := st.seen_index_het + 1 })
      else if parent_gts.length = 1 then
        -- Single parent, must be het. or hom. ref.
        if het_parents.length = 1 then
          pure (some { st with
            seen_het_parents := insert het_parents.headI st.seen_het_parents,
            seen_index_het := st.seen_index_het + 1 })
        else if ref_parents.length = 1 then
          pure (some { st with
            seen_ref_parents := insert ref_parents.headI st.seen_ref_parents,
            seen_index_het := st.seen_index_het + 1 })
        else
          pure (some st)
      else if parent_gts.length = 2 then
        -- Two parents, one must be het. and the other hom. ref.
        if het_parents.length = 1 ∧ ref_parents.length = 1 then
          pure (some { st with
            seen_het_parents := insert het_parents.headI st.seen_het_parents,
            seen_ref_parents := insert ref_parents.headI st.seen_ref_parents,
            seen_index_het := st.seen_index_het + 1 })
        else
          pure (some st)
      else
        Except.error "More than two parents?"
    else
      pure (some st)
  else
    -- Skip this variant, index is ref.
    pure (some st)

/-- The group-level verdict computed after the loop of `passes_for_gene`. -/
def finalCheck (mode : RecessiveMode) (parents : List String) (st : RecState) : Bool :=
  if mode = RecessiveMode.CompoundHeterozygous ∨ mode = RecessiveMode.Any then
    decide (2 ≤ st.seen_index_het) &&
      decide (st.seen_het_parents.card = parents.length) &&
      decide (st.seen_ref_parents.card = parents.length)
  else
    false

/-- The variant loop of `passes_for_gene` with the trailing group-level check. -/
def processVariants (mode : RecessiveMode) (index : String) (parents : List String) :
    RecState → List VariantRecord → Except String Bool
  | st, [] => pure (finalCheck mode parents st)
  | st, v :: vs => do
    match ← processVariant mode index parents st v with
    | none => pure true
    | some st' => processVariants mode index parents st' vs

/-- `seqvars::query::passes_for_gene`: decide whether the variants of one gene
pass the configured recessive mode. -/
def passes_for_gene (query : CaseQuery) (seqvars : List VariantRecord) :
    Except String Bool :=
  if query.genotype.recessive_mode = RecessiveMode.Disabled then
    pure true
  else
    let ip := extractIndexParents query.genotype.sample_genotypes
    processVariants query.genotype.recessive_mode ip.1 ip.2 {} seqvars

/-- Helper building a full-trio variant from three genotype strings, mirroring
the `passes_for_gene_full_trio` test fixture. -/
def trioVariant (gi gf gm : String) : VariantRecord :=
  { call_infos :=
      [ ("index", { sample := "index", genotype := some gi }),
        ("father", { sample := "father", genotype := some gf }),
        ("mother", { sample := "mother", genotype := some gm }) ] }

/-- Helper building a full-trio query, mirroring the `passes_for_gene_full_trio`
test fixture. -/
def trioQuery (mode : RecessiveMode) : CaseQuery :=
  { genotype :=
      { recessive_mode := mode,
        sample_genotypes :=
          [ ("index", { sample := "index", genotype := GenotypeChoice.RecessiveIndex }),
            ("father", { sample := "father", genotype := GenotypeChoice.RecessiveFather }),
            ("mother", { sample := "mother", genotype := GenotypeChoice.RecessiveMother }) ] } }

/-- A variant is well-formed for the active recessive roles when the index
and all parent genotypes are present and parseable (spec section 3
invariant). -/
def wellFormedVariant (index : String) (parents : List String) (v : VariantRecord) : Bool :=
  (indexGenotype index v).isOk && (parentGenotypes parents v).isOk

/-- The early-success condition of `passes_for_gene` (step 3 of the spec's
algorithm): index homozygous-alt, mode allows classic recessive, and every
parent heterozygous. -/
def triggersHom (mode : RecessiveMode) (index : String) (parents : List String)
    (v : VariantRecord) : Bool :=
  (decide (mode = RecessiveMode.Homozygous) || decide (mode = RecessiveMode.Any)) &&
    (match indexGenotype index v, parentGenotypes parents v with
     | Except.ok Genotype.HomAlt, Except.ok gts => gts.all (fun g => g = Genotype.Het)
     | _, _ => false)

/-- Spec step 4: a variant counted as index-heterozygous-compatible — index
Het, no homozygous-alt parent, and the parents' genotypes follow the
compound-heterozygous pattern for their count (0 parents: always; 1 parent:
Het or HomRef; 2 parents: exactly one Het and one HomRef). -/
def indexHetCompatible (index : String) (parents : List String) (v : VariantRecord) : Bool :=
  decide (indexGenotype index v = Except.ok Genotype.Het) &&
    (match parentGenotypes parents v with
     | Except.ok gts =>
       !(decide (Genotype.HomAlt ∈ gts)) &&
         (decide (gts.length = 0) ||
          (decide (gts.length = 1) &&
            (decide (gts.count Genotype.Het = 1) || decide (gts.count Genotype.HomRef = 1))) ||
          (decide (gts.length = 2) &&
            decide (gts.count Genotype.Het = 1) && decide (gts.count Genotype.HomRef = 1)))
     | Except.error _ => false)

/-- The genotype observed for parent `p` in variant `v` (pairing the parent
list with the parsed genotypes). -/
def observedParentGt (parents : List String) (v : VariantRecord) (p : String) :
    Option Genotype :=
  match parentGenotypes parents v with
  | Except.ok gts => (parents.zip gts).lookup p
  | Except.error _ => none

/-- The spec's group-level compound-heterozygous success condition: at least
two counted variants, every configured parent observed Het in some counted
variant, and every configured parent observed HomRef in some counted
variant. -/
def comphetGroupPass (index : String) (parents : List String)
    (vs : List VariantRecord) : Prop :=
  2 ≤ (vs.filter (fun v => indexHetCompatible index parents v)).length ∧
    (∀ p ∈ parents, ∃ v ∈ vs,
      indexHetCompatible index parents v = true ∧
        observedParentGt parents v p = some Genotype.Het) ∧
    (∀ p ∈ parents, ∃ v ∈ vs,
      indexHetCompatible index parents v = true ∧
        observedParentGt parents v p = some Genotype.HomRef)

instance (index : String) (parents : List String) (vs : List VariantRecord) :
    Decidable (comphetGroupPass index parents vs) := by
  unfold comphetGroupPass
  infer_instance

/-- The parents of `v` observed with genotype `g`, as a finite set of sample
names. -/
def parentsWithGt (parents : List String) (v : VariantRecord) (g : Genotype) :
    Finset String :=
  match parentGenotypes parents v with
  | Except.ok gts => (((parents.zip gts).filter (fun x => x.2 = g)).map Prod.fst).toFinset
  | Except.error _ => ∅

/-- Specification-level description of one loop iteration of
`passes_for_gene` on a non-early-exit variant: counted variants bump the
counter and record the observed Het/HomRef parents, all others leave the
state unchanged. -/
def stepState (index : String) (parents : List String) (st : RecState)
    (v : VariantRecord) : RecState :=
  if indexHetCompatible index parents v then
    { seen_het_parents := st.seen_het_parents ∪ parentsWithGt parents v Genotype.Het,
      seen_ref_parents := st.seen_ref_parents ∪ parentsWithGt parents v Genotype.HomRef,
      seen_index_het := st.seen_index_het + 1 }
  else
    st

/-- A query assigning recessive roles to four samples — one index and three
parents (two father-role samples and one mother-role sample). -/
def quadQuery (mode : RecessiveMode) : CaseQuery :=
  { genotype :=
      { recessive_mode := mode,
        sample_genotypes :=
          [ ("index", { sample := "index", genotype := GenotypeChoice.RecessiveIndex }),
            ("father", { sample := "father", genotype := GenotypeChoice.RecessiveFather }),
            ("father2", { sample := "father2", genotype := GenotypeChoice.RecessiveFather }),
            ("mother", { sample := "mother", genotype := GenotypeChoice.RecessiveMother }) ] } }

/-- A variant with call information for the four samples of `quadQuery`. -/
def quadVariant (gi g1 g2 g3 : String) : VariantRecord :=
  { call_infos :=
      [ ("index", { sample := "index", genotype := some gi }),
        ("father", { sample := "father", genotype := some g1 }),
        ("father2", { sample := "father2", genotype := some g2 }),
        ("mother", { sample := "mother", genotype := some g3 }) ] }

/-- Modelled from the spec: `annonars::common::cli::canonicalize` (external
collaborator) — strip a `chr` prelude from the chromosome name and map `M`
to the mitochondrial contig name `MT`. -/
def canonicalize (chrom : String) : String :=
  let c := if chrom.startsWith "chr" then chrom.drop 3 else chrom
  if c = "M" then "MT" else c

namespace Frequency

/-- gnomAD threshold options of the frequency filter
(`schema::GnomadOptions`); frequencies are embedded as rationals, carrier
counts as integers. -/
structure GnomadOptions where
  exomes_enabled : Bool := false
  exomes_frequency : Option ℚ := none
  exomes_heterozygous : Option Int := none
  exomes_homozygous : Option Int := none
  exomes_hemizygous : Option Int := none
  genomes_enabled : Bool := false
  genomes_frequency : Option ℚ := none
  genomes_heterozygous : Option Int := none
  genomes_homozygous : Option Int := none
  genomes_hemizygous : Option Int := none
  deriving DecidableEq, Repr

/-- HelixMtDb threshold options (`schema::HelixMtDbOptions`). -/
structure HelixMtDbOptions where
  enabled : Bool := false
  frequency : Option ℚ := none
  heteroplasmic : Option Int := none
  homoplasmic : Option Int := none
  deriving DecidableEq, Repr

/-- `schema::PopulationFrequencyOptions` (field name `population_freqeuecy`
below keeps the source's spelling). -/
structure PopulationFrequencyOptions where
  gnomad : GnomadOptions := {}
  helixmtdb : HelixMtDbOptions := {}
  deriving DecidableEq, Repr

/-- The (older) `schema::CaseQuery` consumed by the frequency filter,
restricted to the fields it reads. -/
structure CaseQuery where
  population_freqeuecy : PopulationFrequencyOptions := {}
  deriving DecidableEq, Repr

/-- The (older) `schema::SequenceVariant` restricted to the fields read by
the frequency filter. -/
structure SequenceVariant where
  chrom : String := ""
  gnomad_exomes_an : Int := 0
  gnomad_exomes_het : Int := 0
  gnomad_exomes_hom : Int := 0
  gnomad_exomes_hemi : Int := 0
  gnomad_genomes_an : Int := 0
  gnomad_genomes_het : Int := 0
  gnomad_genomes_hom : Int := 0
  gnomad_genomes_hemi : Int := 0
  helix_an : Int := 0
  helix_het : Int := 0
  helix_hom : Int := 0
  deriving DecidableEq, Repr

/-- Modelled from the spec: raw gnomAD-exomes allele frequency — carrier
count over allele number, with `0` when the allele number is zero (the
`SequenceVariant` accessor methods are not among the embedded source
files). -/
def SequenceVariant.gnomad_exomes_af (s : SequenceVariant) : ℚ :=
  if s.gnomad_exomes_an = 0 then 0
  else ((s.gnomad_exomes_het + 2 * s.gnomad_exomes_hom + s.gnomad_exomes_hemi : Int) : ℚ) /
    ((s.gnomad_exomes_an : Int) : ℚ)

/-- Modelled from the spec: raw gnomAD-genomes allele frequency, zero
allele-number convention as for exomes. -/
def SequenceVariant.gnomad_genomes_af (s : SequenceVariant) : ℚ :=
  if s.gnomad_genomes_an = 0 then 0
  else ((s.gnomad_genomes_het + 2 * s.gnomad_genomes_hom + s.gnomad_genomes_hemi : Int) : ℚ) /
    ((s.gnomad_genomes_an : Int) : ℚ)

/-- Modelled from the spec: raw HelixMtDb frequency, zero allele-number
convention as above. -/
def SequenceVariant.helixmtdb_af (s : SequenceVariant) : ℚ :=
  if s.helix_an = 0 then 0
  else ((s.helix_het + 2 * s.helix_hom : Int) : ℚ) / ((s.helix_an : Int) : ℚ)

/-- One threshold test `t.is_some() && value > t.expect("tested before")` on a
frequency threshold; the `expect` is rendered as a fallible unwrap. -/
def checkFreq (threshold : Option ℚ) (value : ℚ) : Except String Bool :=
  if threshold.isSome then do
    let t ← expectSome threshold "tested before"
    pure (decide (value > t))
  else
    pure false

/-- One threshold test on a carrier-count threshold. -/
def checkCount (threshold : Option Int) (value : Int) : Except String Bool :=
  if threshold.isSome then do
    let t ← expectSome threshold "tested before"
    pure (decide (value > t))
  else
    pure false

/-- Short-circuit `||` over fallible boolean tests (Rust evaluates the right
operand only when the left is false). -/
def orM (x y : Except String Bool) : Except String Bool := do
  let b ← x
  if b then pure true else y

/-- The HelixMtDb rejection condition of the frequency filter (the first
`if` of `passes` on mitochondrial loci): enabled, and the frequency or
heteroplasmic or homoplasmic threshold, where set, is exceeded. -/
def helixFails (pop : PopulationFrequencyOptions) (s : SequenceVariant) :
    Except String Bool :=
  if pop.helixmtdb.enabled then
    orM (checkFreq pop.helixmtdb.frequency s.helixmtdb_af)
      (orM (checkCount pop.helixmtdb.heteroplasmic s.helix_het)
        (checkCount pop.helixmtdb.homoplasmic s.helix_hom))
  else
    pure false

/-- The gnomAD-exomes rejection condition of the frequency filter (the
`else if` of `passes` on nuclear loci). -/
def exomesFails (pop : PopulationFrequencyOptions) (s : SequenceVariant) :
    Except String Bool :=
  if pop.gnomad.exomes_enabled then
    orM (checkFreq pop.gnomad.exomes_frequency s.gnomad_exomes_af)
      (orM (checkCount pop.gnomad.exomes_heterozygous s.gnomad_exomes_het)
        (orM (checkCount pop.gnomad.exomes_homozygous s.gnomad_exomes_hom)
          (checkCount pop.gnomad.exomes_hemizygous s.gnomad_exomes_hemi)))
  else
    pure false

/-- The gnomAD-genomes rejection condition of the frequency filter (the
second `if` of `passes`); the hemizygous threshold is consulted only on
non-mitochondrial loci (`!is_mtdna && ...`). -/
def genomesFails (pop : PopulationFrequencyOptions) (s : SequenceVariant)
    (is_mtdna : Bool) : Except String Bool :=
  if pop.gnomad.genomes_enabled then
    orM (checkFreq pop.gnomad.genomes_frequency s.gnomad_genomes_af)
      (orM (checkCount pop.gnomad.genomes_heterozygous s.gnomad_genomes_het)
        (orM (checkCount pop.gnomad.genomes_homozygous s.gnomad_genomes_hom)
          (if is_mtdna then pure false
           else checkCount pop.gnomad.genomes_hemizygous s.gnomad_genomes_hemi)))
  else
    pure false

/-- `seqvars::query::interpreter::frequency::passes`: the population
frequency filter.  Mitochondrial loci consult HelixMtDb, nuclear loci
gnomAD exomes; gnomAD genomes is consulted in both cases, each rejection
returning `Ok(false)` early. -/
def passes (query : CaseQuery) (s : SequenceVariant) : Except String Bool := do
  let firstFails ←
    if decide (canonicalize s.chrom = "MT") then helixFails query.population_freqeuecy s
    else exomesFails query.population_freqeuecy s
  if firstFails then
    pure false
  else do
    let gf ← genomesFails query.population_freqeuecy s
      (decide (canonicalize s.chrom = "MT"))
    if gf then pure false else pure true

/-- The query with the gnomAD-exomes source disabled, all other fields
unchanged. -/
def disableExomes (q : CaseQuery) : CaseQuery :=
  { q with population_freqeuecy :=
      { q.population_freqeuecy with gnomad :=
          { q.population_freqeuecy.gnomad with exomes_enabled := false } } }

/-- The query with the gnomAD-genomes source disabled, all other fields
unchanged. -/
def disableGenomes (q : CaseQuery) : CaseQuery :=
  { q with population_freqeuecy :=
      { q.population_freqeuecy with gnomad :=
          { q.population_freqeuecy.gnomad with genomes_enabled := false } } }

/-- The query with the HelixMtDb source disabled, all other fields
unchanged. -/
def disableHelix (q : CaseQuery) : CaseQuery :=
  { q with population_freqeuecy :=
      { q.population_freqeuecy with helixmtdb :=
          { q.population_freqeuecy.helixmtdb with enabled := false } } }

/-- The query with the gnomAD-genomes hemizygous threshold replaced by `t`,
all other fields unchanged. -/
def setGenomesHemizygous (q : CaseQuery) (t : Option Int) : CaseQuery :=
  { q with population_freqeuecy :=
      { q.population_freqeuecy with gnomad :=
          { q.population_freqeuecy.gnomad with genomes_hemizygous := t } } }

/-- The query used by the C3 witness: gnomAD genomes enabled with an
exceeded hemizygous threshold and an exceeded heterozygous threshold. -/
def mtWitnessQuery : CaseQuery :=
  { population_freqeuecy :=
      { gnomad :=
          { genomes_enabled := true,
            genomes_hemizygous := some 0,
            genomes_heterozygous := some 1 } } }

/-- The mitochondrial variant used by the C3 witness. -/
def mtWitnessVariant : SequenceVariant :=
  { chrom := "MT", gnomad_genomes_hemi := 5, gnomad_genomes_het := 7 }

end Frequency

/-- Modelled from the spec: the canonical chromosome numbering of mehari's
`CHROM_TO_CHROM_NO` map (external collaborator) — autosomes 1–22, then
X = 23, Y = 24, mitochondrial contig = 25; unknown names are absent. -/
def chromToChromNo (chrom : String) : Option Nat :=
  let c := if chrom.startsWith "chr" then chrom.drop 3 else chrom
  if c = "X" then some 23
  else if c = "Y" then some 24
  else if c = "M" ∨ c = "MT" then some 25
  else
    ([("1", 1), ("2", 2), ("3", 3), ("4", 4), ("5", 5), ("6", 6), ("7", 7), ("8", 8), ("9", 9), ("10", 10), ("11", 11), ("12", 12), ("13", 13), ("14", 14), ("15", 15), ("16", 16), ("17", 17), ("18", 18), ("19", 19), ("20", 20), ("21", 21), ("22", 22)] :
      List (String × Nat)).lookup c

/-- Modelled from the spec: the coordinate sort key of
`sorting::ByCoordinate` — (canonical chromosome number, start position). -/
def coordKey (v : VariantRecord) : Nat × Int :=
  ((chromToChromNo v.vcf_variant.chrom).getD 0, v.vcf_variant.pos)

/-- Lexicographic comparison of coordinate keys. -/
def coordLe (a b : VariantRecord) : Bool :=
  decide ((coordKey a).1 < (coordKey b).1) ||
    (decide ((coordKey a).1 = (coordKey b).1) && decide ((coordKey a).2 ≤ (coordKey b).2))

/-- Modelled from the spec: the final coordinate-ordering pass of
`run_query` — the external sorter (`ext_sort`, an external collaborator)
totally orders the surviving records by their `ByCoordinate` key. -/
def sortByCoordinate (vs : List VariantRecord) : List VariantRecord :=
  vs.mergeSort coordLe

/-- Modelled from the spec: mehari's `bin_from_range` (external
collaborator) — the standard UCSC hierarchical binning of the zero-based
half-open interval `[start, stop)`; inverted intervals are an error. -/
def bin_from_range (start stop : Int) : Except String Int :=
  if stop < start then Except.error "start must be <= stop"
  else
    let b := start.toNat
    let e := (stop - 1).toNat
    if b >>> 14 = e >>> 14 then Except.ok ((4681 + (b >>> 14) : Nat) : Int)
    else if b >>> 17 = e >>> 17 then Except.ok ((585 + (b >>> 17) : Nat) : Int)
    else if b >>> 20 = e >>> 20 then Except.ok ((73 + (b >>> 20) : Nat) : Int)
    else if b >>> 23 = e >>> 23 then Except.ok ((9 + (b >>> 23) : Nat) : Int)
    else if b >>> 26 = e >>> 26 then Except.ok ((1 + (b >>> 26) : Nat) : Int)
    else Except.ok 0

/-- The locus fields of one output row written by
`create_payload_and_write_record` (the `end` column is embedded as
`end_pos`, `end` being a Lean keyword; payload/UUID assembly is out of
scope for the claims). -/
structure OutputRecord where
  chromosome : String
  chromosome_no : Int
  start : Int
  end_pos : Int
  bin : Int
  reference : String
  alternative : String
  deriving DecidableEq, Repr

/-- The locus-field computation of `create_payload_and_write_record`:
`end = start + len(reference) - 1`, the UCSC bin of the zero-based
half-open span `(start - 1, end)`, and the canonical chromosome number
(`expect("invalid chromosome")` rendered as a fallible lookup). -/
def create_output_record (v : VariantRecord) : Except String OutputRecord := do
  let start := v.vcf_variant.pos
  let end_pos := start + (v.vcf_variant.ref_allele.length : Int) - 1
  let bin ← bin_from_range (start - 1) end_pos
  let chrom_no ← expectSome (chromToChromNo v.vcf_variant.chrom) "invalid chromosome"
  pure
    { chromosome := v.vcf_variant.chrom,
      chromosome_no := (chrom_no : Int),
      start := start,
      end_pos := end_pos,
      bin := bin,
      reference := v.vcf_variant.ref_allele,
      alternative := v.vcf_variant.alt_allele }

/-- The final emission loop of `run_query`: build one output row per
coordinate-sorted record, stopping at the first error. -/
def createOutputRecords : List VariantRecord → Except String (List OutputRecord)
  | [] => pure []
  | v :: vs => do
    let r ← create_output_record v
    let rs ← createOutputRecords vs
    pure (r :: rs)

/-- The emitted output of the third pipeline pass: rows for the
coordinate-sorted surviving records. -/
def outputRows (vs : List VariantRecord) : Except String (List OutputRecord) :=
  createOutputRecords (sortByCoordinate vs)

/-- The spec's coordinate-key order on output rows: canonical chromosome
number first, then ascending start position. -/
def rowKeyLe (a b : OutputRecord) : Prop :=
  a.chromosome_no < b.chromosome_no ∨
    (a.chromosome_no = b.chromosome_no ∧ a.start ≤ b.start)

/-- The input variant of the C9 witness. -/
def c9WitnessVariant : VariantRecord :=
  { vcf_variant := { chrom := "1", pos := 100, ref_allele := "AT", alt_allele := "A" } }

/-- The expected output row of the C9 witness. -/
def c9WitnessRow : OutputRecord :=
  { chromosome := "1",
    chromosome_no := 1,
    start := 100,
    end_pos := 101,
    bin := 4681,
    reference := "AT",
    alternative := "A" }

section RecessiveLemmas

lemma processVariants_cons_error {mode index parents st v vs e}
    (h : processVariant mode index parents st v = Except.error e) :
    processVariants mode index parents st (v :: vs) = Except.error e := by
  simp [processVariants, h, Bind.bind, Except.bind]

lemma processVariants_cons_none {mode index parents st v vs}
    (h : processVariant mode index parents st v = Except.ok none) :
    processVariants mode index parents st (v :: vs) = Except.ok true := by
  simp [processVariants, h, Bind.bind, Except.bind, pure, Except.pure]

lemma processVariants_cons_some {mode index parents st st' v vs}
    (h : processVariant mode index parents st v = Except.ok (some st')) :
    processVariants mode index parents st (v :: vs) =
      processVariants mode index parents st' vs := by
  simp [processVariants, h, Bind.bind, Except.bind]

lemma parentGenotypes_ok_length {ps : List String} {v gts}
    (h : parentGenotypes ps v = Except.ok gts) : gts.length = ps.length := by
  induction ps generalizing gts with
  | nil =>
    simp [parentGenotypes, pure, Except.pure] at h
    subst h; rfl
  | cons p ps ih =>
    simp only [parentGenotypes, Bind.bind, Except.bind] at h
    cases hg : parentGenotype p v with
    | error e => rw [hg] at h; simp at h
    | ok g =>
      rw [hg] at h
      cases hr : parentGenotypes ps v with
      | error e => rw [hr] at h; simp at h
      | ok gs =>
        rw [hr] at h
        simp [pure, Except.pure] at h
        subst h
        simp [ih hr]

lemma parentGenotypes_ok_zip_mem {ps : List String} {v gts}
    (h : parentGenotypes ps v = Except.ok gts) :
    ∀ pr ∈ ps.zip gts, parentGenotype pr.1 v = Except.ok pr.2 := by
  induction ps generalizing gts with
  | nil => simp
  | cons p ps ih =>
    simp only [parentGenotypes, Bind.bind, Except.bind] at h
    cases hg : parentGenotype p v with
    | error e => rw [hg] at h; simp at h
    | ok g =>
      rw [hg] at h
      cases hr : parentGenotypes ps v with
      | error e => rw [hr] at h; simp at h
      | ok gs =>
        rw [hr] at h
        simp [pure, Except.pure] at h
        subst h
        intro pr hpr
        rcases List.mem_cons.mp hpr with h1 | h2
        · subst h1; exact hg
        · exact ih hr pr h2

lemma zip_mem_of_right {ps : List String} {gts : List Genotype} {g : Genotype}
    (hlen : gts.length = ps.length) (hg : g ∈ gts) : ∃ p, (p, g) ∈ ps.zip gts := by
  induction ps generalizing gts with
  | nil => cases gts <;> simp_all
  | cons p ps ih =>
    cases gts with
    | nil => simp at hg
    | cons g0 gs =>
      simp only [List.length_cons, Nat.succ_inj] at hlen
      rcases List.mem_cons.mp hg with h1 | h2
      · subst h1; exact ⟨p, by simp⟩
      · obtain ⟨p', hp'⟩ := ih hlen h2
        exact ⟨p', by simp [hp']⟩

lemma filter_length_eq_all {α : Type} (l : List α) (p : α → Bool) :
    (l.filter p).length = l.length ↔ ∀ a ∈ l, p a := by
  induction l with
  | nil => simp
  | cons a l ih =>
    by_cases hpa : p a
    · simp [List.filter_cons, hpa, ih]
    · simp only [List.filter_cons, hpa, Bool.false_eq_true, if_false, List.length_cons]
      constructor
      · intro h
        exfalso
        have := List.length_filter_le p l
        omega
      · intro h
        exact absurd (h a (by simp)) (by simpa using hpa)

lemma zip_filter_snd_length {ps : List String} {gts : List Genotype}
    (hlen : gts.length = ps.length) (g : Genotype) :
    ((ps.zip gts).filter (fun x => x.2 = g)).length = gts.count g := by
  induction ps generalizing gts with
  | nil => cases gts <;> simp_all [List.count_nil]
  | cons p ps ih =>
    cases gts with
    | nil => simp at hlen
    | cons g0 gs =>
      simp only [List.length_cons, Nat.succ_inj] at hlen
      by_cases hg : g0 = g
      · subst hg
        simp [List.zip_cons_cons, List.filter_cons, List.count_cons, ih hlen]
      · simp [List.zip_cons_cons, List.filter_cons, List.count_cons, hg, ih hlen,
          Ne.symm hg]

lemma processVariant_skip_homalt {mode index parents st v ig gts}
    (hidx : indexGenotype index v = Except.ok ig)
    (hpar : parentGenotypes parents v = Except.ok gts)
    (hmem : Genotype.HomAlt ∈ gts) :
    processVariant mode index parents st v = Except.ok (some st) := by
  have hlen := parentGenotypes_ok_length hpar
  obtain ⟨p, hp⟩ := zip_mem_of_right hlen hmem
  have hmemf : (p, Genotype.HomAlt) ∈
      (parents.zip gts).filter (fun x => x.2 = Genotype.HomAlt) := by
    simp [List.mem_filter, hp]
  have hne : (((parents.zip gts).filter (fun x => x.2 = Genotype.HomAlt)).map Prod.fst) ≠ [] := by
    intro hcon
    have := List.mem_map_of_mem Prod.fst hmemf
    rw [hcon] at this
    simp at this
  have hfalse :
      ((((parents.zip gts).filter (fun x => x.2 = Genotype.HomAlt)).map Prod.fst).isEmpty) =
        false := by
    simp [List.isEmpty_iff]
    exact ⟨p, hp⟩
  simp only [processVariant, hidx, hpar, Bind.bind, Except.bind]
  simp [hfalse, pure, Except.pure]

lemma processVariant_trigger_none {mode index parents st v gts}
    (hidx : indexGenotype index v = Except.ok Genotype.HomAlt)
    (hpar : parentGenotypes parents v = Except.ok gts)
    (hmode : mode = RecessiveMode.Homozygous ∨ mode = RecessiveMode.Any)
    (hall : ∀ g ∈ gts, g = Genotype.Het) :
    processVariant mode index parents st v = Except.ok none := by
  have hlen := parentGenotypes_ok_length hpar
  have hablist : (parents.zip gts).filter (fun x => x.2 = Genotype.HomAlt) = [] := by
    rw [List.filter_eq_nil_iff]
    intro a ha
    have h2 : a.2 ∈ gts := (List.of_mem_zip ha).2
    simp [hall a.2 h2]
  have hziplen : (parents.zip gts).length = gts.length := by
    rw [List.length_zip]
    omega
  have hhet : ((parents.zip gts).filter (fun x => x.2 = Genotype.Het)).length = gts.length := by
    rw [← hziplen]
    rw [filter_length_eq_all]
    intro a ha
    have h2 : a.2 ∈ gts := (List.of_mem_zip ha).2
    simp [hall a.2 h2]
  simp only [processVariant, hidx, hpar, Bind.bind, Except.bind]
  simp [hablist, hhet, hmode, pure, Except.pure]

lemma isOk_exists {α : Type} {x : Except String α} (h : x.isOk = true) :
    ∃ a, x = Except.ok a := by
  cases x with
  | ok a => exact ⟨a, rfl⟩
  | error e => simp [Except.isOk, Except.toBool] at h

lemma processVariant_ok {mode index parents st v}
    (hwf : wellFormedVariant index parents v = true)
    (hlen : parents.length ≤ 2) :
    ∃ r, processVariant mode index parents st v = Except.ok r := by
  simp only [wellFormedVariant, Bool.and_eq_true] at hwf
  obtain ⟨ig, hidx⟩ := isOk_exists hwf.1
  obtain ⟨gts, hpar⟩ := isOk_exists hwf.2
  have hlen2 : gts.length = parents.length := parentGenotypes_ok_length hpar
  apply isOk_exists
  simp only [processVariant, hidx, hpar, Bind.bind, Except.bind]
  split_ifs <;> first | rfl | (exfalso; omega)

lemma processVariants_trigger_true {mode index parents}
    (hlen : parents.length ≤ 2)
    (hmode : mode = RecessiveMode.Homozygous ∨ mode = RecessiveMode.Any) :
    ∀ (vs : List VariantRecord) (st : RecState),
      (∀ u ∈ vs, wellFormedVariant index parents u = true) →
      (∃ v ∈ vs, ∃ gts, indexGenotype index v = Except.ok Genotype.HomAlt ∧
        parentGenotypes parents v = Except.ok gts ∧ (∀ g ∈ gts, g = Genotype.Het)) →
      processVariants mode index parents st vs = Except.ok true := by
  intro vs
  induction vs with
  | nil => intro st _ hv; simp at hv
  | cons u rest ih =>
    intro st hwf hv
    obtain ⟨r, hr⟩ := processVariant_ok (hwf u (by simp)) hlen
    cases r with
    | none => exact processVariants_cons_none hr
    | some st' =>
      rw [processVariants_cons_some hr]
      obtain ⟨v, hvmem, gts, h1, h2, h3⟩ := hv
      rcases List.mem_cons.mp hvmem with heq | hmem
      · subst heq
        rw [processVariant_trigger_none h1 h2 hmode h3] at hr
        simp at hr
      · exact ih st' (fun w hw => hwf w (by simp [hw])) ⟨v, hmem, gts, h1, h2, h3⟩

lemma processVariants_append_skip {mode index parents v}
    (hskip : ∀ st, processVariant mode index parents st v = Except.ok (some st)) :
    ∀ (vs₁ vs₂ : List VariantRecord) (st : RecState),
      processVariants mode index parents st (vs₁ ++ v :: vs₂) =
        processVariants mode index parents st (vs₁ ++ vs₂) := by
  intro vs₁
  induction vs₁ with
  | nil =>
    intro vs₂ st
    simp only [List.nil_append]
    rw [processVariants_cons_some (hskip st)]
  | cons u vs₁ ih =>
    intro vs₂ st
    simp only [List.cons_append]
    cases hr : processVariant mode index parents st u with
    | error e => rw [processVariants_cons_error hr, processVariants_cons_error hr]
    | ok r =>
      cases r with
      | none => rw [processVariants_cons_none hr, processVariants_cons_none hr]
      | some st' => rw [processVariants_cons_some hr, processVariants_cons_some hr, ih]

lemma filter_homalt_nil {ps : List String} {gts : List Genotype}
    (hmem : Genotype.HomAlt ∉ gts) :
    (ps.zip gts).filter (fun x => x.2 = Genotype.HomAlt) = [] := by
  rw [List.filter_eq_nil_iff]
  intro a ha
  simp only [decide_eq_true_eq]
  intro hcon
  exact hmem (hcon ▸ (List.of_mem_zip ha).2)

lemma union_singleton_eq_insert (s : Finset String) (a : String) : s ∪ {a} = insert a s := by
  rw [Finset.union_comm, ← Finset.insert_eq]

lemma processVariant_step {mode index parents st v ig gts}
    (hmode : mode = RecessiveMode.CompoundHeterozygous ∨ mode = RecessiveMode.Any)
    (hidx : indexGenotype index v = Except.ok ig)
    (hpar : parentGenotypes parents v = Except.ok gts)
    (hlen : parents.length ≤ 2)
    (hnt : triggersHom mode index parents v = false) :
    processVariant mode index parents st v =
      Except.ok (some (stepState index parents st v)) := by
  have hlen2 : gts.length = parents.length := parentGenotypes_ok_length hpar
  by_cases hmem : Genotype.HomAlt ∈ gts
  · rw [processVariant_skip_homalt hidx hpar hmem]
    have hns : stepState index parents st v = st := by
      simp [stepState, indexHetCompatible, hidx, hpar, hmem]
    rw [hns]
  · have hab : (parents.zip gts).filter (fun x => x.2 = Genotype.HomAlt) = [] :=
      filter_homalt_nil hmem
    simp only [processVariant, hidx, hpar, Bind.bind, Except.bind, hab, List.map_nil]
    rw [if_neg (by simp)]
    cases ig with
    | HomRef =>
      rw [if_neg (by simp), if_neg (by simp)]
      have hns : stepState index parents st v = st := by
        simp [stepState, indexHetCompatible, hidx]
      rw [hns]
      rfl
    | Missing =>
      rw [if_neg (by simp), if_neg (by simp)]
      have hns : stepState index parents st v = st := by
        simp [stepState, indexHetCompatible, hidx]
      rw [hns]
      rfl
    | HomAlt =>
      rw [if_pos rfl]
      have hns : stepState index parents st v = st := by
        simp [stepState, indexHetCompatible, hidx]
      rcases hmode with hm | hm
      · subst hm
        rw [if_neg (by simp), hns]
        rfl
      · subst hm
        rw [if_pos (by simp)]
        have hall : gts.all (fun g => decide (g = Genotype.Het)) = false := by
          have := hnt
          simp only [triggersHom, hidx, hpar] at this
          simpa using this
        have hcnt : ((parents.zip gts).filter (fun x => x.2 = Genotype.Het)).length =
            gts.count Genotype.Het := zip_filter_snd_length hlen2 _
        have hne : gts.count Genotype.Het ≠ gts.length := by
          intro heq
          have hallt := List.count_eq_length.mp heq
          have hat : gts.all (fun g => decide (g = Genotype.Het)) = true := by
            rw [List.all_eq_true]
            intro g hg
            simpa using (hallt g hg).symm
          rw [hat] at hall
          simp at hall
        rw [if_pos (by simpa [hcnt] using hne), hns]
        rfl
    | Het =>
      rw [if_neg (by simp), if_pos rfl, if_pos hmode]
      cases parents with
      | nil =>
        have hg : gts = [] := List.length_eq_zero.mp hlen2
        subst hg
        simp [stepState, indexHetCompatible, parentsWithGt, hidx, hpar, pure, Except.pure]
      | cons p0 ptl =>
        cases ptl with
        | nil =>
          obtain ⟨g0, hg⟩ := List.length_eq_one.mp hlen2
          subst hg
          rw [if_neg (by simp), if_pos (by simp)]
          cases g0 with
          | Het =>
            rw [if_pos (by simp)]
            simp [stepState, indexHetCompatible, parentsWithGt, hidx, hpar,
              List.zip_cons_cons, List.filter_cons, List.headI,
              Finset.union_insert, Finset.union_empty, union_singleton_eq_insert,
              pure, Except.pure]
          | HomRef =>
            rw [if_neg (by simp), if_pos (by simp)]
            simp [stepState, indexHetCompatible, parentsWithGt, hidx, hpar,
              List.zip_cons_cons, List.filter_cons, List.headI,
              Finset.union_insert, Finset.union_empty, union_singleton_eq_insert,
              pure, Except.pure]
          | HomAlt => simp at hmem
          | Missing =>
            rw [if_neg (by simp), if_neg (by simp)]
            simp [stepState, indexHetCompatible, parentsWithGt, hidx, hpar,
              List.zip_cons_cons, List.filter_cons, pure, Except.pure]
        | cons p1 ptl2 =>
          cases ptl2 with
          | nil =>
            obtain ⟨g0, g1, hg⟩ := List.length_eq_two.mp hlen2
            subst hg
            rw [if_neg (by simp), if_neg (by simp), if_pos (by simp)]
            cases g0 <;> cases g1 <;>
              simp_all [stepState, indexHetCompatible, parentsWithGt,
                List.zip_cons_cons, List.filter_cons, List.headI,
                Finset.union_insert, Finset.union_empty, union_singleton_eq_insert,
                pure, Except.pure]
          | cons p2 ptl3 =>
            exfalso
            simp only [List.length_cons] at hlen
            omega

lemma processVariants_steps {mode index parents}
    (hmode : mode = RecessiveMode.CompoundHeterozygous ∨ mode = RecessiveMode.Any)
    (hlen : parents.length ≤ 2) :
    ∀ (vs : List VariantRecord) (st : RecState),
      (∀ u ∈ vs, wellFormedVariant index parents u = true) →
      (∀ u ∈ vs, triggersHom mode index parents u = false) →
      processVariants mode index parents st vs =
        Except.ok (finalCheck mode parents (vs.foldl (stepState index parents) st)) := by
  intro vs
  induction vs with
  | nil => intro st _ _; rfl
  | cons u rest ih =>
    intro st hwf hnt
    have hw := hwf u (by simp)
    simp only [wellFormedVariant, Bool.and_eq_true] at hw
    obtain ⟨ig, hidx⟩ := isOk_exists hw.1
    obtain ⟨gts, hpar⟩ := isOk_exists hw.2
    rw [processVariants_cons_some
      (processVariant_step hmode hidx hpar hlen (hnt u (by simp)))]
    rw [List.foldl_cons]
    exact ih _ (fun w hw => hwf w (by simp [hw])) (fun w hw => hnt w (by simp [hw]))

lemma foldl_step_count {index parents} :
    ∀ (vs : List VariantRecord) (st : RecState),
      (vs.foldl (stepState index parents) st).seen_index_het =
        st.seen_index_het +
          (vs.filter (fun v => indexHetCompatible index parents v)).length := by
  intro vs
  induction vs with
  | nil => intro st; simp
  | cons u rest ih =>
    intro st
    rw [List.foldl_cons, ih]
    by_cases hc : indexHetCompatible index parents u = true
    · simp [stepState, hc, List.filter_cons]
      omega
    · simp [stepState, hc, List.filter_cons]

lemma foldl_step_het_mem {index parents} (p : String) :
    ∀ (vs : List VariantRecord) (st : RecState),
      (p ∈ (vs.foldl (stepState index parents) st).seen_het_parents ↔
        p ∈ st.seen_het_parents ∨ ∃ v ∈ vs, indexHetCompatible index parents v = true ∧
          p ∈ parentsWithGt parents v Genotype.Het) := by
  intro vs
  induction vs with
  | nil => intro st; simp
  | cons u rest ih =>
    intro st
    rw [List.foldl_cons, ih]
    by_cases hc : indexHetCompatible index parents u = true
    · simp only [stepState, hc, if_true, Finset.mem_union, List.mem_cons]
      constructor
      · rintro ((h | h) | ⟨v, hv, hcv, hp⟩)
        · exact Or.inl h
        · exact Or.inr ⟨u, Or.inl rfl, hc, h⟩
        · exact Or.inr ⟨v, Or.inr hv, hcv, hp⟩
      · rintro (h | ⟨v, hv | hv, hcv, hp⟩)
        · exact Or.inl (Or.inl h)
        · subst hv; exact Or.inl (Or.inr hp)
        · exact Or.inr ⟨v, hv, hcv, hp⟩
    · simp only [stepState, hc, if_false, List.mem_cons]
      constructor
      · rintro (h | ⟨v, hv, hcv, hp⟩)
        · exact Or.inl h
        · exact Or.inr ⟨v, Or.inr hv, hcv, hp⟩
      · rintro (h | ⟨v, hv | hv, hcv, hp⟩)
        · exact Or.inl h
        · subst hv; exact absurd hcv hc
        · exact Or.inr ⟨v, hv, hcv, hp⟩

lemma foldl_step_ref_mem {index parents} (p : String) :
    ∀ (vs : List VariantRecord) (st : RecState),
      (p ∈ (vs.foldl (stepState index parents) st).seen_ref_parents ↔
        p ∈ st.seen_ref_parents ∨ ∃ v ∈ vs, indexHetCompatible index parents v = true ∧
          p ∈ parentsWithGt parents v Genotype.HomRef) := by
  intro vs
  induction vs with
  | nil => intro st; simp
  | cons u rest ih =>
    intro st
    rw [List.foldl_cons, ih]
    by_cases hc : indexHetCompatible index parents u = true
    · simp only [stepState, hc, if_true, Finset.mem_union, List.mem_cons]
      constructor
      · rintro ((h | h) | ⟨v, hv, hcv, hp⟩)
        · exact Or.inl h
        · exact Or.inr ⟨u, Or.inl rfl, hc, h⟩
        · exact Or.inr ⟨v, Or.inr hv, hcv, hp⟩
      · rintro (h | ⟨v, hv | hv, hcv, hp⟩)
        · exact Or.inl (Or.inl h)
        · subst hv; exact Or.inl (Or.inr hp)
        · exact Or.inr ⟨v, hv, hcv, hp⟩
    · simp only [stepState, hc, if_false, List.mem_cons]
      constructor
      · rintro (h | ⟨v, hv, hcv, hp⟩)
        · exact Or.inl h
        · exact Or.inr ⟨v, Or.inr hv, hcv, hp⟩
      · rintro (h | ⟨v, hv | hv, hcv, hp⟩)
        · exact Or.inl h
        · subst hv; exact absurd hcv hc
        · exact Or.inr ⟨v, hv, hcv, hp⟩

lemma lookup_zip {ps : List String} {gts : List Genotype} (hnd : ps.Nodup)
    (hlen : gts.length = ps.length) {p : String} {g : Genotype} :
    ((ps.zip gts).lookup p = some g) ↔ (p, g) ∈ ps.zip gts := by
  induction ps generalizing gts with
  | nil => cases gts <;> simp [List.lookup]
  | cons p0 ps ih =>
    cases gts with
    | nil => simp at hlen
    | cons g0 gs =>
      simp only [List.length_cons, Nat.succ_inj] at hlen
      have hnd0 : p0 ∉ ps := (List.nodup_cons.mp hnd).1
      have hndt : ps.Nodup := (List.nodup_cons.mp hnd).2
      simp only [List.zip_cons_cons, List.lookup]
      by_cases hpe : p = p0
      · subst hpe
        simp only [beq_self_eq_true]
        constructor
        · intro h
          simp only [Option.some.injEq] at h
          subst h
          exact List.mem_cons_self _ _
        · intro h
          rcases List.mem_cons.mp h with h1 | h2
          · simp only [Prod.mk.injEq] at h1
            rw [h1.2]
          · exact absurd (List.of_mem_zip h2).1 hnd0
      · have hbe : (p == p0) = false := beq_eq_false_iff_ne.mpr hpe
        simp only [hbe]
        rw [show List.zipWith Prod.mk ps gs = ps.zip gs from rfl]
        rw [ih hndt hlen]
        constructor
        · intro h
          exact List.mem_cons_of_mem _ h
        · intro h
          rcases List.mem_cons.mp h with h1 | h2
          · exact absurd (congrArg Prod.fst h1) hpe
          · exact h2

lemma mem_parentsWithGt_iff {parents : List String} {v : VariantRecord}
    {p : String} {g : Genotype} {gts : List Genotype}
    (hnd : parents.Nodup)
    (hpar : parentGenotypes parents v = Except.ok gts) :
    (p ∈ parentsWithGt parents v g ↔ observedParentGt parents v p = some g) := by
  have hlen := parentGenotypes_ok_length hpar
  simp only [parentsWithGt, observedParentGt, hpar]
  rw [List.mem_toFinset, lookup_zip hnd hlen]
  constructor
  · intro h
    obtain ⟨x, hx, hfst⟩ := List.mem_map.mp h
    rcases x with ⟨a, b⟩
    have hmf := List.mem_filter.mp hx
    have hb : b = g := by simpa using hmf.2
    have ha : a = p := hfst
    rw [← ha, ← hb]
    exact hmf.1
  · intro h
    apply List.mem_map.mpr
    exact ⟨(p, g), List.mem_filter.mpr ⟨h, by simp⟩, rfl⟩

lemma parentsWithGt_subset {parents : List String} {v : VariantRecord} {g : Genotype} :
    parentsWithGt parents v g ⊆ parents.toFinset := by
  intro p hp
  simp only [parentsWithGt] at hp
  cases hpar : parentGenotypes parents v with
  | error e => rw [hpar] at hp; simp at hp
  | ok gts =>
    rw [hpar] at hp
    rw [List.mem_toFinset] at hp
    rw [List.mem_toFinset]
    obtain ⟨x, hx, hfst⟩ := List.mem_map.mp hp
    exact hfst ▸ (List.of_mem_zip (List.mem_filter.mp hx).1).1

lemma card_eq_length_iff {parents : List String} {S : Finset String}
    (hnd : parents.Nodup) (hsub : S ⊆ parents.toFinset) :
    (S.card = parents.length ↔ ∀ p ∈ parents, p ∈ S) := by
  have hc : parents.toFinset.card = parents.length := List.toFinset_card_of_nodup hnd
  constructor
  · intro h
    have hS : S = parents.toFinset := Finset.eq_of_subset_of_card_le hsub (by omega)
    intro p hp
    rw [hS]
    exact List.mem_toFinset.mpr hp
  · intro h
    have hsub2 : parents.toFinset ⊆ S := fun p hp => h p (List.mem_toFinset.mp hp)
    have hS : S = parents.toFinset := Finset.Subset.antisymm hsub hsub2
    rw [hS, hc]

lemma processVariant_comphet_not_none {index parents st v} :
    processVariant RecessiveMode.CompoundHeterozygous index parents st v ≠
      Except.ok none := by
  intro hcon
  cases hidx : indexGenotype index v with
  | error e =>
    simp only [processVariant, hidx, Bind.bind, Except.bind] at hcon
    exact absurd hcon (by simp)
  | ok ig =>
    cases hpar : parentGenotypes parents v with
    | error e =>
      simp only [processVariant, hidx, hpar, Bind.bind, Except.bind] at hcon
      exact absurd hcon (by simp)
    | ok gts =>
      simp only [processVariant, hidx, hpar, Bind.bind, Except.bind] at hcon
      split_ifs at hcon <;> simp_all [pure, Except.pure]

lemma processVariant_comphet_het_error {index parents v} (st : RecState)
    (hlen : 2 < parents.length)
    (hidx : indexGenotype index v = Except.ok Genotype.Het)
    (hnoHA : ∀ p ∈ parents, ¬ parentGenotype p v = Except.ok Genotype.HomAlt) :
    ∃ e, processVariant RecessiveMode.CompoundHeterozygous index parents st v =
      Except.error e := by
  cases hpar : parentGenotypes parents v with
  | error e =>
    exact ⟨e, by simp only [processVariant, hidx, hpar, Bind.bind, Except.bind]⟩
  | ok gts =>
    have hlen2 := parentGenotypes_ok_length hpar
    have hmemz := parentGenotypes_ok_zip_mem hpar
    have hnomem : Genotype.HomAlt ∉ gts := by
      intro hmem
      obtain ⟨p, hp⟩ := zip_mem_of_right hlen2 hmem
      exact hnoHA p (List.of_mem_zip hp).1 (hmemz _ hp)
    have hab : (parents.zip gts).filter (fun x => x.2 = Genotype.HomAlt) = [] := by
      rw [List.filter_eq_nil_iff]
      intro a ha
      have h2 := (List.of_mem_zip ha).2
      simp only [decide_eq_true_eq]
      intro hcon
      exact hnomem (hcon ▸ h2)
    have h0 : ¬ (gts.length = 0) := by omega
    have h1 : ¬ (gts.length = 1) := by omega
    have h2 : ¬ (gts.length = 2) := by omega
    refine ⟨"More than two parents?", ?_⟩
    simp only [processVariant, hidx, hpar, Bind.bind, Except.bind]
    simp [hab, h0, h1, h2]

lemma processVariants_comphet_error {index parents}
    (hlen : 2 < parents.length) :
    ∀ (vs : List VariantRecord) (st : RecState),
      (∃ v ∈ vs, indexGenotype index v = Except.ok Genotype.Het ∧
        ∀ p ∈ parents, ¬ parentGenotype p v = Except.ok Genotype.HomAlt) →
      ∃ e, processVariants RecessiveMode.CompoundHeterozygous index parents st vs =
        Except.error e := by
  intro vs
  induction vs with
  | nil => intro st hv; simp at hv
  | cons u rest ih =>
    intro st hv
    cases hr : processVariant RecessiveMode.CompoundHeterozygous index parents st u with
    | error e => exact ⟨e, processVariants_cons_error hr⟩
    | ok r =>
      cases r with
      | none => exact absurd hr processVariant_comphet_not_none
      | some st' =>
        obtain ⟨v, hvmem, h1, h2⟩ := hv
        rcases List.mem_cons.mp hvmem with heq | hmem
        · subst heq
          obtain ⟨e, he⟩ := processVariant_comphet_het_error st hlen h1 h2
          rw [he] at hr
          simp at hr
        · obtain ⟨e, he⟩ := ih st' ⟨v, hmem, h1, h2⟩
          exact ⟨e, by rw [processVariants_cons_some hr]; exact he⟩

end RecessiveLemmas

/-- Counterexample to C5 as stated: with three parent roles configured and
recessive mode enabled (`Homozygous`), a group containing a variant with
index genotype Het and no HomAlt parent is *not* rejected with an error —
`passes_for_gene` silently returns `Ok(false)` (the more-than-two-parents
guard sits inside the compound-heterozygous branch only). -/
theorem passes_for_gene_three_parents_counterexample :
    passes_for_gene (quadQuery RecessiveMode.Homozygous)
      [quadVariant "0/1" "0/0" "0/0" "0/0"] = Except.ok false := by decide

/-- C5 (amended): in mode `CompoundHeterozygous`, a configuration with more
than two parent roles is rejected with an error (the `unreachable!` panic)
for any group containing a variant whose index genotype is Het and none of
whose parent genotypes parses to HomAlt, rather than silently producing a
pass/fail verdict. -/
theorem passes_for_gene_gt_two_parents_errors (query : CaseQuery)
    (vs : List VariantRecord)
    (hmode : query.genotype.recessive_mode = RecessiveMode.CompoundHeterozygous)
    (hlen : 2 < (extractIndexParents query.genotype.sample_genotypes).2.length)
    (hv : ∃ v ∈ vs,
      indexGenotype (extractIndexParents query.genotype.sample_genotypes).1 v =
        Except.ok Genotype.Het ∧
      ∀ p ∈ (extractIndexParents query.genotype.sample_genotypes).2,
        ¬ parentGenotype p v = Except.ok Genotype.HomAlt) :
    ∃ e, passes_for_gene query vs = Except.error e := by
  unfold passes_for_gene
  rw [if_neg (by simp [hmode])]
  rw [hmode]
  exact processVariants_comphet_error hlen vs {} hv

/-- Witness for the amended C5: the three-parent configuration in
compound-heterozygous mode errors on a Het-index variant. -/
theorem passes_for_gene_gt_two_parents_errors_witness :
    ∃ e, passes_for_gene (quadQuery RecessiveMode.CompoundHeterozygous)
      [quadVariant "0/1" "0/0" "0/0" "0/0"] = Except.error e :=
  passes_for_gene_gt_two_parents_errors _ _ rfl (by decide)
    ⟨quadVariant "0/1" "0/0" "0/0" "0/0", by simp, by decide, by decide⟩

/-- C1: with mode `CompoundHeterozygous` or `Any`, when no variant triggers
the homozygous-recessive early success, a gene group passes if and only if at
least two variants are counted index-heterozygous-compatible, every
configured parent is observed Het in at least one counted variant, and every
configured parent is observed HomRef in at least one counted variant
(hypotheses: distinct parent roles, at most two of them, and — per the
spec's invariant — present, parseable genotypes for the configured roles). -/
theorem passes_for_gene_comphet_iff (query : CaseQuery) (vs : List VariantRecord)
    (hmode : query.genotype.recessive_mode = RecessiveMode.CompoundHeterozygous ∨
      query.genotype.recessive_mode = RecessiveMode.Any)
    (hnd : (extractIndexParents query.genotype.sample_genotypes).2.Nodup)
    (hlen : (extractIndexParents query.genotype.sample_genotypes).2.length ≤ 2)
    (hwf : ∀ u ∈ vs, wellFormedVariant (extractIndexParents query.genotype.sample_genotypes).1
      (extractIndexParents query.genotype.sample_genotypes).2 u = true)
    (hnt : ∀ u ∈ vs, triggersHom query.genotype.recessive_mode
      (extractIndexParents query.genotype.sample_genotypes).1
      (extractIndexParents query.genotype.sample_genotypes).2 u = false) :
    (passes_for_gene query vs = Except.ok true ↔
      comphetGroupPass (extractIndexParents query.genotype.sample_genotypes).1
        (extractIndexParents query.genotype.sample_genotypes).2 vs) := by
  set mode := query.genotype.recessive_mode with hmdef
  set index := (extractIndexParents query.genotype.sample_genotypes).1 with hidef
  set parents := (extractIndexParents query.genotype.sample_genotypes).2 with hpdef
  have hnotdis : ¬ mode = RecessiveMode.Disabled := by
    rcases hmode with h | h <;> simp [h]
  unfold passes_for_gene
  rw [if_neg hnotdis]
  rw [processVariants_steps hmode hlen vs {} hwf hnt]
  set final := vs.foldl (stepState index parents) ({} : RecState) with hfinal
  have hiff : (Except.ok (finalCheck mode parents final) =
      (Except.ok true : Except String Bool)) ↔ finalCheck mode parents final = true := by
    simp
  rw [hiff]
  unfold finalCheck
  rw [if_pos hmode]
  simp only [Bool.and_eq_true, decide_eq_true_eq, and_assoc]
  have hcnt : final.seen_index_het =
      (vs.filter (fun v => indexHetCompatible index parents v)).length := by
    rw [hfinal, foldl_step_count]
    simp
  have hhetmem : ∀ p, p ∈ final.seen_het_parents ↔
      ∃ v ∈ vs, indexHetCompatible index parents v = true ∧
        p ∈ parentsWithGt parents v Genotype.Het := by
    intro p
    rw [hfinal, foldl_step_het_mem]
    simp [RecState.seen_het_parents]
  have hrefmem : ∀ p, p ∈ final.seen_ref_parents ↔
      ∃ v ∈ vs, indexHetCompatible index parents v = true ∧
        p ∈ parentsWithGt parents v Genotype.HomRef := by
    intro p
    rw [hfinal, foldl_step_ref_mem]
    simp [RecState.seen_ref_parents]
  have hhetsub : final.seen_het_parents ⊆ parents.toFinset := by
    intro p hp
    obtain ⟨v, _, _, hpw⟩ := (hhetmem p).mp hp
    exact parentsWithGt_subset hpw
  have hrefsub : final.seen_ref_parents ⊆ parents.toFinset := by
    intro p hp
    obtain ⟨v, _, _, hpw⟩ := (hrefmem p).mp hp
    exact parentsWithGt_subset hpw
  have hobs : ∀ v ∈ vs, ∀ (p : String) (g : Genotype),
      (p ∈ parentsWithGt parents v g ↔ observedParentGt parents v p = some g) := by
    intro v hv p g
    have hw := hwf v hv
    simp only [wellFormedVariant, Bool.and_eq_true] at hw
    obtain ⟨gts, hpar⟩ := isOk_exists hw.2
    exact mem_parentsWithGt_iff hnd hpar
  rw [card_eq_length_iff hnd hhetsub, card_eq_length_iff hnd hrefsub]
  unfold comphetGroupPass
  constructor
  · rintro ⟨h1, h2, h3⟩
    refine ⟨by rw [← hcnt]; exact h1, ?_, ?_⟩
    · intro p hp
      obtain ⟨v, hv, hcv, hpw⟩ := (hhetmem p).mp (h2 p hp)
      exact ⟨v, hv, hcv, (hobs v hv p _).mp hpw⟩
    · intro p hp
      obtain ⟨v, hv, hcv, hpw⟩ := (hrefmem p).mp (h3 p hp)
      exact ⟨v, hv, hcv, (hobs v hv p _).mp hpw⟩
  · rintro ⟨h1, h2, h3⟩
    refine ⟨by rw [hcnt]; exact h1, ?_, ?_⟩
    · intro p hp
      obtain ⟨v, hv, hcv, hov⟩ := h2 p hp
      exact (hhetmem p).mpr ⟨v, hv, hcv, (hobs v hv p _).mpr hov⟩
    · intro p hp
      obtain ⟨v, hv, hcv, hov⟩ := h3 p hp
      exact (hrefmem p).mpr ⟨v, hv, hcv, (hobs v hv p _).mpr hov⟩

/-- Witness for C1: the claim's own example — mode `Any`, trio group
`[Het/Het/HomRef, Het/Het/HomRef]` — instantiates the equivalence (both
sides are false there: the father is never seen HomRef, the mother never
Het). -/
theorem passes_for_gene_comphet_iff_witness :
    (passes_for_gene (trioQuery RecessiveMode.Any)
        [trioVariant "0/1" "0/1" "0/0", trioVariant "0/1" "0/1" "0/0"] = Except.ok true) ↔
      comphetGroupPass
        (extractIndexParents (trioQuery RecessiveMode.Any).genotype.sample_genotypes).1
        (extractIndexParents (trioQuery RecessiveMode.Any).genotype.sample_genotypes).2
        [trioVariant "0/1" "0/1" "0/0", trioVariant "0/1" "0/1" "0/0"] :=
  passes_for_gene_comphet_iff _ _ (Or.inr rfl) (by decide) (by decide) (by decide)
    (by decide)

/-- C2: with mode `Homozygous` or `Any`, a single variant whose index
genotype is homozygous-alt, with no homozygous-alt parent and every
configured parent heterozygous, makes the whole gene group pass — provided
(as the spec's well-formedness invariant demands) all variants carry
present, parseable genotypes for the configured roles and at most two
parent roles are configured. -/
theorem passes_for_gene_homozygous_single (query : CaseQuery) (vs : List VariantRecord)
    (hmode : query.genotype.recessive_mode = RecessiveMode.Homozygous ∨
      query.genotype.recessive_mode = RecessiveMode.Any)
    (hplen : (extractIndexParents query.genotype.sample_genotypes).2.length ≤ 2)
    (hwf : ∀ u ∈ vs, wellFormedVariant (extractIndexParents query.genotype.sample_genotypes).1
      (extractIndexParents query.genotype.sample_genotypes).2 u = true)
    (hv : ∃ v ∈ vs, ∃ gts,
      indexGenotype (extractIndexParents query.genotype.sample_genotypes).1 v =
        Except.ok Genotype.HomAlt ∧
      parentGenotypes (extractIndexParents query.genotype.sample_genotypes).2 v =
        Except.ok gts ∧
      Genotype.HomAlt ∉ gts ∧ (∀ g ∈ gts, g = Genotype.Het)) :
    passes_for_gene query vs = Except.ok true := by
  have hnd : ¬ query.genotype.recessive_mode = RecessiveMode.Disabled := by
    rcases hmode with h | h <;> simp [h]
  unfold passes_for_gene
  rw [if_neg hnd]
  apply processVariants_trigger_true hplen hmode vs _ hwf
  obtain ⟨v, hvmem, gts, h1, h2, _, h4⟩ := hv
  exact ⟨v, hvmem, gts, h1, h2, h4⟩

/-- Witness for C2: in mode `Any`, the trio group
`[HomAlt/Het/Het, Het/HomRef/Het]` passes on the strength of the first
variant alone. -/
theorem passes_for_gene_homozygous_single_witness :
    passes_for_gene (trioQuery RecessiveMode.Any)
      [trioVariant "1/1" "0/1" "0/1", trioVariant "0/1" "0/0" "0/1"] = Except.ok true :=
  passes_for_gene_homozygous_single _ _ (Or.inr rfl) (by decide) (by decide)
    ⟨trioVariant "1/1" "0/1" "0/1", by simp,
      [Genotype.Het, Genotype.Het], by decide, by decide, by decide, by decide⟩

/-- C6: a variant with a homozygous-alt configured parent is discarded from
recessive-mode consideration — removing it from the group (anywhere in the
group) does not change the verdict, so it neither contributes to any pass
nor by itself fails the group. -/
theorem passes_for_gene_discards_homalt_parent (query : CaseQuery)
    (vs₁ vs₂ : List VariantRecord) (v : VariantRecord)
    (hmode : query.genotype.recessive_mode ≠ RecessiveMode.Disabled)
    (hidx : ∃ ig, indexGenotype (extractIndexParents query.genotype.sample_genotypes).1 v =
      Except.ok ig)
    (hpar : ∃ gts, parentGenotypes (extractIndexParents query.genotype.sample_genotypes).2 v =
      Except.ok gts ∧ Genotype.HomAlt ∈ gts) :
    passes_for_gene query (vs₁ ++ v :: vs₂) = passes_for_gene query (vs₁ ++ vs₂) := by
  obtain ⟨ig, hidx⟩ := hidx
  obtain ⟨gts, hpar, hmem⟩ := hpar
  unfold passes_for_gene
  rw [if_neg hmode, if_neg hmode]
  exact processVariants_append_skip
    (fun st => processVariant_skip_homalt hidx hpar hmem) vs₁ vs₂ {}

/-- Witness for C6: inserting a father-HomAlt variant into a passing
compound-heterozygous trio group leaves the verdict unchanged. -/
theorem passes_for_gene_discards_homalt_parent_witness :
    passes_for_gene (trioQuery RecessiveMode.CompoundHeterozygous)
        [trioVariant "0/1" "0/1" "0/0", trioVariant "0/1" "1/1" "0/0",
          trioVariant "0/1" "0/0" "0/1"] =
      passes_for_gene (trioQuery RecessiveMode.CompoundHeterozygous)
        [trioVariant "0/1" "0/1" "0/0", trioVariant "0/1" "0/0" "0/1"] :=
  passes_for_gene_discards_homalt_parent (trioQuery RecessiveMode.CompoundHeterozygous)
    [trioVariant "0/1" "0/1" "0/0"] [trioVariant "0/1" "0/0" "0/1"]
    (trioVariant "0/1" "1/1" "0/0") (by decide)
    ⟨Genotype.Het, by decide⟩
    ⟨[Genotype.HomAlt, Genotype.HomRef], by decide, by decide⟩

/-- C8: with `RecessiveMode = Disabled` the recessive evaluator is a no-op —
for every query in disabled mode and every gene group (including the empty
one, and groups with arbitrary, even unparseable, call data),
`passes_for_gene` returns `Ok(true)` without inspecting any genotype. -/
theorem passes_for_gene_disabled_noop (query : CaseQuery) (seqvars : List VariantRecord)
    (h : query.genotype.recessive_mode = RecessiveMode.Disabled) :
    passes_for_gene query seqvars = Except.ok true := by
  simp [passes_for_gene, h, pure, Except.pure]

/-- Witness for C8: a concrete disabled-mode query on the empty group. -/
theorem passes_for_gene_disabled_noop_witness :
    passes_for_gene (trioQuery RecessiveMode.Disabled) [] = Except.ok true :=
  passes_for_gene_disabled_noop (trioQuery RecessiveMode.Disabled) [] (by decide)

example : passes_for_gene (trioQuery RecessiveMode.CompoundHeterozygous)
    [trioVariant "0/1" "0/1" "0/0"] = Except.ok false := by decide

example : passes_for_gene (trioQuery RecessiveMode.CompoundHeterozygous)
    [trioVariant "1/1" "0/0" "0/0"] = Except.ok false := by decide

example : passes_for_gene (trioQuery RecessiveMode.CompoundHeterozygous)
    [trioVariant "0/1" "0/1" "0/0", trioVariant "0/1" "0/0" "0/1"] = Except.ok true := by
  decide

example : passes_for_gene (trioQuery RecessiveMode.Any)
    [trioVariant "1/1" "0/0" "0/0", trioVariant "0/1" "0/0" "0/1"] = Except.ok false := by
  decide

example : passes_for_gene (trioQuery RecessiveMode.Any)
    [trioVariant "1/1" "0/1" "0/1", trioVariant "0/1" "0/0" "0/1"] = Except.ok true := by
  decide

example : passes_for_gene (trioQuery RecessiveMode.Any)
    [trioVariant "1/0" "1/0" "0/0", trioVariant "0/1" "0/0" "0/1"] = Except.ok true := by
  decide

example : passes_for_gene (trioQuery RecessiveMode.Any)
    [trioVariant "1/0" "1/0" "0/0", trioVariant "1/0" "0/1" "0/0"] = Except.ok false := by
  decide

namespace Frequency

lemma checkFreq_ok (t : Option ℚ) (v : ℚ) : ∃ b, checkFreq t v = Except.ok b := by
  cases t with
  | none => exact ⟨false, rfl⟩
  | some t => exact ⟨decide (v > t), rfl⟩

lemma checkCount_ok (t : Option Int) (v : Int) : ∃ b, checkCount t v = Except.ok b := by
  cases t with
  | none => exact ⟨false, rfl⟩
  | some t => exact ⟨decide (v > t), rfl⟩

lemma orM_ok {x y : Except String Bool} (hx : ∃ b, x = Except.ok b)
    (hy : ∃ b, y = Except.ok b) : ∃ b, orM x y = Except.ok b := by
  obtain ⟨b1, h1⟩ := hx
  obtain ⟨b2, h2⟩ := hy
  cases b1 with
  | false => exact ⟨b2, by simp [orM, h1, h2, Bind.bind, Except.bind]⟩
  | true => exact ⟨true, by simp [orM, h1, Bind.bind, Except.bind, pure, Except.pure]⟩

lemma orM_right_true {x y : Except String Bool} (hx : ∃ b, x = Except.ok b)
    (hy : y = Except.ok true) : orM x y = Except.ok true := by
  obtain ⟨b1, h1⟩ := hx
  cases b1 with
  | false => simp [orM, h1, hy, Bind.bind, Except.bind]
  | true => simp [orM, h1, Bind.bind, Except.bind, pure, Except.pure]

lemma orM_left_true {x y : Except String Bool} (hx : x = Except.ok true) :
    orM x y = Except.ok true := by
  simp [orM, hx, Bind.bind, Except.bind, pure, Except.pure]

lemma bite_ok {c : Bool} {x y : Except String Bool} (hx : ∃ b, x = Except.ok b)
    (hy : ∃ b, y = Except.ok b) : ∃ b, (if c then x else y) = Except.ok b := by
  cases c
  · simpa using hy
  · simpa using hx

lemma helixFails_ok (pop : PopulationFrequencyOptions) (s : SequenceVariant) :
    ∃ b, helixFails pop s = Except.ok b := by
  unfold helixFails
  split_ifs
  · exact orM_ok (checkFreq_ok _ _) (orM_ok (checkCount_ok _ _) (checkCount_ok _ _))
  · exact ⟨false, rfl⟩

lemma exomesFails_ok (pop : PopulationFrequencyOptions) (s : SequenceVariant) :
    ∃ b, exomesFails pop s = Except.ok b := by
  unfold exomesFails
  split_ifs
  · exact orM_ok (checkFreq_ok _ _)
      (orM_ok (checkCount_ok _ _) (orM_ok (checkCount_ok _ _) (checkCount_ok _ _)))
  · exact ⟨false, rfl⟩

lemma genomesFails_ok (pop : PopulationFrequencyOptions) (s : SequenceVariant)
    (m : Bool) : ∃ b, genomesFails pop s m = Except.ok b := by
  unfold genomesFails
  by_cases he : pop.gnomad.genomes_enabled = true
  · rw [if_pos he]
    exact orM_ok (checkFreq_ok _ _)
      (orM_ok (checkCount_ok _ _)
        (orM_ok (checkCount_ok _ _) (bite_ok ⟨false, rfl⟩ (checkCount_ok _ _))))
  · rw [if_neg he]
    exact ⟨false, rfl⟩

lemma passes_ok_true_iff (q : CaseQuery) (s : SequenceVariant) :
    passes q s = Except.ok true ↔
      ((if decide (canonicalize s.chrom = "MT") then helixFails q.population_freqeuecy s
        else exomesFails q.population_freqeuecy s) = Except.ok false ∧
        genomesFails q.population_freqeuecy s (decide (canonicalize s.chrom = "MT")) =
          Except.ok false) := by
  by_cases hmt : canonicalize s.chrom = "MT"
  · have hd : decide (canonicalize s.chrom = "MT") = true := by simp [hmt]
    obtain ⟨b1, h1⟩ := helixFails_ok q.population_freqeuecy s
    obtain ⟨b2, h2⟩ := genomesFails_ok q.population_freqeuecy s true
    unfold passes
    rw [hd]
    cases b1 <;> cases b2 <;>
      simp [h1, h2, Bind.bind, Except.bind, pure, Except.pure]
  · have hd : decide (canonicalize s.chrom = "MT") = false := by simp [hmt]
    obtain ⟨b1, h1⟩ := exomesFails_ok q.population_freqeuecy s
    obtain ⟨b2, h2⟩ := genomesFails_ok q.population_freqeuecy s false
    unfold passes
    rw [hd]
    cases b1 <;> cases b2 <;>
      simp [h1, h2, Bind.bind, Except.bind, pure, Except.pure]

/-- C10: the frequency filter is total — for every query and variant it
returns `Ok(true)` or `Ok(false)`, never an error, although its signature
allows one (every `expect` is guarded by the preceding `is_some` test). -/
theorem passes_total (q : CaseQuery) (s : SequenceVariant) :
    ∃ b, passes q s = Except.ok b := by
  by_cases hmt : canonicalize s.chrom = "MT"
  · have hd : decide (canonicalize s.chrom = "MT") = true := by simp [hmt]
    obtain ⟨b1, h1⟩ := helixFails_ok q.population_freqeuecy s
    obtain ⟨b2, h2⟩ := genomesFails_ok q.population_freqeuecy s true
    unfold passes
    rw [hd]
    cases b1 with
    | true => exact ⟨false, by simp [h1, Bind.bind, Except.bind, pure, Except.pure]⟩
    | false =>
      cases b2 with
      | true => exact ⟨false, by simp [h1, h2, Bind.bind, Except.bind, pure, Except.pure]⟩
      | false => exact ⟨true, by simp [h1, h2, Bind.bind, Except.bind, pure, Except.pure]⟩
  · have hd : decide (canonicalize s.chrom = "MT") = false := by simp [hmt]
    obtain ⟨b1, h1⟩ := exomesFails_ok q.population_freqeuecy s
    obtain ⟨b2, h2⟩ := genomesFails_ok q.population_freqeuecy s false
    unfold passes
    rw [hd]
    cases b1 with
    | true => exact ⟨false, by simp [h1, Bind.bind, Except.bind, pure, Except.pure]⟩
    | false =>
      cases b2 with
      | true => exact ⟨false, by simp [h1, h2, Bind.bind, Except.bind, pure, Except.pure]⟩
      | false => exact ⟨true, by simp [h1, h2, Bind.bind, Except.bind, pure, Except.pure]⟩

/-- C4: the frequency filter is monotone in every source's enabled flag —
a variant passing under `q` still passes after disabling any single source
(gnomAD exomes, gnomAD genomes, or HelixMtDb), all other fields unchanged. -/
theorem passes_monotone_enabled (q : CaseQuery) (s : SequenceVariant)
    (h : passes q s = Except.ok true) :
    passes (disableExomes q) s = Except.ok true ∧
    passes (disableGenomes q) s = Except.ok true ∧
    passes (disableHelix q) s = Except.ok true := by
  rw [passes_ok_true_iff] at h
  obtain ⟨h1, h2⟩ := h
  refine ⟨?_, ?_, ?_⟩
  · rw [passes_ok_true_iff]
    constructor
    · by_cases hmt : canonicalize s.chrom = "MT"
      · have hd : decide (canonicalize s.chrom = "MT") = true := by simp [hmt]
        rw [hd] at h1 ⊢
        simpa using h1
      · have hd : decide (canonicalize s.chrom = "MT") = false := by
          simp [hmt]
        rw [hd] at h1 ⊢
        simp only [Bool.false_eq_true, if_false]
        rfl
    · exact h2
  · rw [passes_ok_true_iff]
    exact ⟨h1, rfl⟩
  · rw [passes_ok_true_iff]
    constructor
    · by_cases hmt : canonicalize s.chrom = "MT"
      · have hd : decide (canonicalize s.chrom = "MT") = true := by simp [hmt]
        rw [hd]
        simp only [if_true]
        rfl
      · have hd : decide (canonicalize s.chrom = "MT") = false := by
          simp [hmt]
        rw [hd] at h1 ⊢
        simpa using h1
    · exact h2

/-- Witness for C4: a passing query/variant pair stays passing under each
single-source disable. -/
theorem passes_monotone_enabled_witness :
    passes (disableExomes {}) { chrom := "X" } = Except.ok true ∧
    passes (disableGenomes {}) { chrom := "X" } = Except.ok true ∧
    passes (disableHelix {}) { chrom := "X" } = Except.ok true :=
  passes_monotone_enabled {} { chrom := "X" } rfl

lemma genomesFails_hemi_irrelevant_mtdna (pop : PopulationFrequencyOptions)
    (s : SequenceVariant) (t : Option Int) :
    genomesFails { pop with gnomad := { pop.gnomad with genomes_hemizygous := t } } s true =
      genomesFails pop s true := by
  simp [genomesFails]

lemma genomesFails_true_of_het (pop : PopulationFrequencyOptions) (s : SequenceVariant)
    (m : Bool) (t : Int)
    (he : pop.gnomad.genomes_enabled = true)
    (ht : pop.gnomad.genomes_heterozygous = some t)
    (hv : s.gnomad_genomes_het > t) :
    genomesFails pop s m = Except.ok true := by
  unfold genomesFails
  rw [if_pos he]
  refine orM_right_true (checkFreq_ok _ _) ?_
  refine orM_left_true ?_
  rw [ht]
  simp [checkCount, expectSome, Bind.bind, Except.bind, pure, Except.pure, hv]

lemma genomesFails_true_of_hom (pop : PopulationFrequencyOptions) (s : SequenceVariant)
    (m : Bool) (t : Int)
    (he : pop.gnomad.genomes_enabled = true)
    (ht : pop.gnomad.genomes_homozygous = some t)
    (hv : s.gnomad_genomes_hom > t) :
    genomesFails pop s m = Except.ok true := by
  unfold genomesFails
  rw [if_pos he]
  refine orM_right_true (checkFreq_ok _ _) ?_
  refine orM_right_true (checkCount_ok _ _) ?_
  refine orM_left_true ?_
  rw [ht]
  simp [checkCount, expectSome, Bind.bind, Except.bind, pure, Except.pure, hv]

lemma genomesFails_true_of_freq (pop : PopulationFrequencyOptions) (s : SequenceVariant)
    (m : Bool) (t : ℚ)
    (he : pop.gnomad.genomes_enabled = true)
    (ht : pop.gnomad.genomes_frequency = some t)
    (hv : s.gnomad_genomes_af > t) :
    genomesFails pop s m = Except.ok true := by
  unfold genomesFails
  rw [if_pos he]
  refine orM_left_true ?_
  rw [ht]
  simp [checkFreq, expectSome, Bind.bind, Except.bind, pure, Except.pure, hv]

lemma passes_false_of_genomesFails (q : CaseQuery) (s : SequenceVariant)
    (h : genomesFails q.population_freqeuecy s (decide (canonicalize s.chrom = "MT")) =
      Except.ok true) :
    passes q s = Except.ok false := by
  by_cases hmt : canonicalize s.chrom = "MT"
  · have hd : decide (canonicalize s.chrom = "MT") = true := by simp [hmt]
    rw [hd] at h
    obtain ⟨b1, h1⟩ := helixFails_ok q.population_freqeuecy s
    unfold passes
    rw [hd]
    cases b1 <;> simp [h1, h, Bind.bind, Except.bind, pure, Except.pure]
  · have hd : decide (canonicalize s.chrom = "MT") = false := by simp [hmt]
    rw [hd] at h
    obtain ⟨b1, h1⟩ := exomesFails_ok q.population_freqeuecy s
    unfold passes
    rw [hd]
    cases b1 <;> simp [h1, h, Bind.bind, Except.bind, pure, Except.pure]

/-- C3: on mitochondrial loci the gnomAD-genomes hemizygous threshold is
inert — replacing it by any value (including an exceeded one) does not
change the filter's verdict — while the gnomAD-genomes frequency,
heterozygous and homozygous thresholds still reject such a variant when
enabled and exceeded. -/
theorem passes_mtdna_hemizygous_skipped (q : CaseQuery) (s : SequenceVariant)
    (hmt : canonicalize s.chrom = "MT") :
    (∀ t, passes (setGenomesHemizygous q t) s = passes q s) ∧
    (q.population_freqeuecy.gnomad.genomes_enabled = true →
      (∀ t, q.population_freqeuecy.gnomad.genomes_frequency = some t →
        s.gnomad_genomes_af > t → passes q s = Except.ok false) ∧
      (∀ t, q.population_freqeuecy.gnomad.genomes_heterozygous = some t →
        s.gnomad_genomes_het > t → passes q s = Except.ok false) ∧
      (∀ t, q.population_freqeuecy.gnomad.genomes_homozygous = some t →
        s.gnomad_genomes_hom > t → passes q s = Except.ok false)) := by
  have hd : decide (canonicalize s.chrom = "MT") = true := by simp [hmt]
  constructor
  · intro t
    unfold passes
    rw [hd]
    have hhel : helixFails (setGenomesHemizygous q t).population_freqeuecy s =
        helixFails q.population_freqeuecy s := rfl
    have hexo : exomesFails (setGenomesHemizygous q t).population_freqeuecy s =
        exomesFails q.population_freqeuecy s := rfl
    have hgen : genomesFails (setGenomesHemizygous q t).population_freqeuecy s true =
        genomesFails q.population_freqeuecy s true :=
      genomesFails_hemi_irrelevant_mtdna q.population_freqeuecy s t
    simp only [hhel, hexo, hgen]
  · intro he
    refine ⟨?_, ?_, ?_⟩
    · intro t ht hv
      exact passes_false_of_genomesFails q s
        (by rw [hd]; exact genomesFails_true_of_freq _ _ _ t he ht hv)
    · intro t ht hv
      exact passes_false_of_genomesFails q s
        (by rw [hd]; exact genomesFails_true_of_het _ _ _ t he ht hv)
    · intro t ht hv
      exact passes_false_of_genomesFails q s
        (by rw [hd]; exact genomesFails_true_of_hom _ _ _ t he ht hv)

/-- Witness for C3: on the mitochondrial witness variant, clearing the
exceeded hemizygous threshold does not change the verdict, and the exceeded
heterozygous threshold rejects the variant. -/
theorem passes_mtdna_hemizygous_skipped_witness :
    passes (setGenomesHemizygous mtWitnessQuery none) mtWitnessVariant =
      passes mtWitnessQuery mtWitnessVariant ∧
    passes mtWitnessQuery mtWitnessVariant = Except.ok false :=
  ⟨(passes_mtdna_hemizygous_skipped mtWitnessQuery mtWitnessVariant rfl).1 none,
   ((passes_mtdna_hemizygous_skipped mtWitnessQuery mtWitnessVariant rfl).2 rfl).2.1
      1 rfl (by decide)⟩
end Frequency

section OutputLemmas

lemma coordLe_trans {a b c : VariantRecord} (hab : coordLe a b = true)
    (hbc : coordLe b c = true) : coordLe a c = true := by
  simp only [coordLe, Bool.or_eq_true, Bool.and_eq_true, decide_eq_true_eq] at *
  omega

lemma coordLe_total (a b : VariantRecord) :
    coordLe a b = true ∨ coordLe b a = true := by
  simp only [coordLe, Bool.or_eq_true, Bool.and_eq_true, decide_eq_true_eq]
  omega

lemma sortByCoordinate_sorted (vs : List VariantRecord) :
    (sortByCoordinate vs).Pairwise (fun a b => coordLe a b = true) := by
  have h : (sortByCoordinate vs).Sorted (fun a b => coordLe a b = true) := by
    apply List.sorted_mergeSort
    · intro a b c hab hbc
      exact coordLe_trans hab hbc
    · intro a b
      rcases coordLe_total a b with h | h <;> simp [h]
  exact h

lemma createOutputRecords_forall2 {vs : List VariantRecord} {rs : List OutputRecord}
    (h : createOutputRecords vs = Except.ok rs) :
    List.Forall₂ (fun v r => create_output_record v = Except.ok r) vs rs := by
  induction vs generalizing rs with
  | nil =>
    simp [createOutputRecords, pure, Except.pure] at h
    subst h
    exact List.Forall₂.nil
  | cons v vs ih =>
    simp only [createOutputRecords, Bind.bind, Except.bind] at h
    cases hr : create_output_record v with
    | error e => rw [hr] at h; simp at h
    | ok r =>
      rw [hr] at h
      cases hrs : createOutputRecords vs with
      | error e => rw [hrs] at h; simp at h
      | ok rs' =>
        rw [hrs] at h
        simp [pure, Except.pure] at h
        subst h
        exact List.Forall₂.cons hr (ih hrs)

lemma create_output_record_ok {v : VariantRecord} {r : OutputRecord}
    (h : create_output_record v = Except.ok r) :
    ∃ b n,
      bin_from_range (v.vcf_variant.pos - 1)
          (v.vcf_variant.pos + (v.vcf_variant.ref_allele.length : Int) - 1) =
        Except.ok b ∧
      chromToChromNo v.vcf_variant.chrom = some n ∧
      r = { chromosome := v.vcf_variant.chrom,
            chromosome_no := (n : Int),
            start := v.vcf_variant.pos,
            end_pos := v.vcf_variant.pos + (v.vcf_variant.ref_allele.length : Int) - 1,
            bin := b,
            reference := v.vcf_variant.ref_allele,
            alternative := v.vcf_variant.alt_allele } := by
  simp only [create_output_record, Bind.bind, Except.bind] at h
  cases hb : bin_from_range (v.vcf_variant.pos - 1)
      (v.vcf_variant.pos + (v.vcf_variant.ref_allele.length : Int) - 1) with
  | error e => rw [hb] at h; simp at h
  | ok b =>
    rw [hb] at h
    cases hc : chromToChromNo v.vcf_variant.chrom with
    | none => rw [hc] at h; simp [expectSome] at h
    | some n =>
      rw [hc] at h
      simp only [expectSome, pure, Except.pure, Except.ok.injEq] at h
      exact ⟨b, n, rfl, rfl, h.symm⟩

lemma forall₂_mem_right {α β : Type} {S : α → β → Prop} {l : List α} {l' : List β}
    (h : List.Forall₂ S l l') : ∀ b ∈ l', ∃ a ∈ l, S a b := by
  induction h with
  | nil => simp
  | cons hs hf ih =>
    intro b hb
    rcases List.mem_cons.mp hb with h1 | h2
    · subst h1; exact ⟨_, by simp, hs⟩
    · obtain ⟨a, ha, hS⟩ := ih b h2
      exact ⟨a, by simp [ha], hS⟩

lemma coordLe_rowKeyLe {a b : VariantRecord} {ra rb : OutputRecord}
    (hab : coordLe a b = true)
    (ha : create_output_record a = Except.ok ra)
    (hb : create_output_record b = Except.ok rb) :
    rowKeyLe ra rb := by
  obtain ⟨xa, na, _, hna, hra⟩ := create_output_record_ok ha
  obtain ⟨xb, nb, _, hnb, hrb⟩ := create_output_record_ok hb
  simp only [coordLe, coordKey, hna, hnb, Option.getD_some, Bool.or_eq_true,
    Bool.and_eq_true, decide_eq_true_eq] at hab
  subst hra
  subst hrb
  simp only [rowKeyLe]
  rcases hab with h | ⟨h1, h2⟩
  · left
    exact_mod_cast h
  · right
    constructor
    · exact_mod_cast h1
    · exact h2

lemma forall₂_pairwise {R : VariantRecord → VariantRecord → Prop}
    {l : List VariantRecord} {l' : List OutputRecord}
    {S : VariantRecord → OutputRecord → Prop} {R' : OutputRecord → OutputRecord → Prop}
    (hf : List.Forall₂ S l l') (hp : l.Pairwise R)
    (himp : ∀ a b a' b', R a b → S a a' → S b b' → R' a' b') : l'.Pairwise R' := by
  induction hf with
  | nil => exact List.Pairwise.nil
  | cons hs hf ih =>
    cases hp with
    | cons hr hp =>
      refine List.Pairwise.cons ?_ (ih hp)
      intro b' hb'
      obtain ⟨b, hbmem, hSb⟩ := forall₂_mem_right hf b' hb'
      exact himp _ _ _ _ (hr b hbmem) hs hSb

end OutputLemmas

/-- C7: the emitted output is coordinate-sorted — for every pair of
consecutive output rows the coordinate key (canonical chromosome number,
then ascending start position) is non-decreasing. -/
theorem outputRows_sorted (vs : List VariantRecord) (rows : List OutputRecord)
    (h : outputRows vs = Except.ok rows) :
    List.Chain' rowKeyLe rows := by
  unfold outputRows at h
  have hf := createOutputRecords_forall2 h
  have hs := sortByCoordinate_sorted vs
  have hp : rows.Pairwise rowKeyLe :=
    forall₂_pairwise hf hs (fun a b ra rb hab ha hb => coordLe_rowKeyLe hab ha hb)
  exact hp.chain'

unseal List.merge List.mergeSort in
/-- Witness for C7: three records on chromosomes 10, 2 and X (lexically
out of order) are emitted in canonical chromosome order. -/
theorem outputRows_sorted_witness :
    ∃ rows, outputRows
      [ { vcf_variant := { chrom := "10", pos := 5, ref_allele := "A", alt_allele := "T" } },
        { vcf_variant := { chrom := "2", pos := 7, ref_allele := "C", alt_allele := "G" } },
        { vcf_variant := { chrom := "X", pos := 1, ref_allele := "G", alt_allele := "A" } } ] =
      Except.ok rows ∧ List.Chain' rowKeyLe rows := by
  refine ⟨?_, ?_, ?_⟩
  · exact
      [ { chromosome := "2", chromosome_no := 2, start := 7, end_pos := 7, bin := 4681,
          reference := "C", alternative := "G" },
        { chromosome := "10", chromosome_no := 10, start := 5, end_pos := 5, bin := 4681,
          reference := "A", alternative := "T" },
        { chromosome := "X", chromosome_no := 23, start := 1, end_pos := 1, bin := 4681,
          reference := "G", alternative := "A" } ]
  · rfl
  · apply outputRows_sorted
      [ { vcf_variant := { chrom := "10", pos := 5, ref_allele := "A", alt_allele := "T" } },
        { vcf_variant := { chrom := "2", pos := 7, ref_allele := "C", alt_allele := "G" } },
        { vcf_variant := { chrom := "X", pos := 1, ref_allele := "G", alt_allele := "A" } } ]
    rfl

/-- C9: every emitted row satisfies `end = start + len(reference) - 1`, its
bin is the UCSC bin of the zero-based half-open span `(start - 1, end)`, and
two rows with equal spans always receive the same bin. -/
theorem create_output_record_end_bin (v : VariantRecord) (r : OutputRecord)
    (h : create_output_record v = Except.ok r) :
    r.end_pos = r.start + (v.vcf_variant.ref_allele.length : Int) - 1 ∧
    bin_from_range (r.start - 1) r.end_pos = Except.ok r.bin ∧
    (∀ v' r', create_output_record v' = Except.ok r' →
      r.start - 1 = r'.start - 1 → r.end_pos = r'.end_pos → r.bin = r'.bin) := by
  obtain ⟨b, n, hb, hn, hr⟩ := create_output_record_ok h
  subst hr
  refine ⟨rfl, by simpa using hb, ?_⟩
  intro v' r' h' hs he
  obtain ⟨b', n', hb', hn', hr'⟩ := create_output_record_ok h'
  subst hr'
  simp only at hs he ⊢
  have hpos : v'.vcf_variant.pos = v.vcf_variant.pos := by omega
  rw [hpos] at hb'
  have harg : v.vcf_variant.pos + (v'.vcf_variant.ref_allele.length : Int) - 1 =
      v.vcf_variant.pos + (v.vcf_variant.ref_allele.length : Int) - 1 := by omega
  rw [harg] at hb'
  rw [hb] at hb'
  exact (Except.ok.injEq _ _).mp hb'

/-- Witness for C9: a concrete two-base record on chromosome 1. -/
theorem create_output_record_end_bin_witness :
    create_output_record c9WitnessVariant = Except.ok c9WitnessRow ∧
    c9WitnessRow.end_pos = c9WitnessRow.start + 2 - 1 ∧
    bin_from_range (c9WitnessRow.start - 1) c9WitnessRow.end_pos =
      Except.ok c9WitnessRow.bin :=
  ⟨rfl,
    (create_output_record_end_bin c9WitnessVariant c9WitnessRow rfl).1,
    (create_output_record_end_bin c9WitnessVariant c9WitnessRow rfl).2.1⟩
